import Mathlib

/-!
# MigraSafe — formal model of the migration risk analysis engine

A shallow embedding of `migrasafe.py`: the rule catalog, the regex-based
matcher (`re.finditer` with `IGNORECASE`), the result aggregation and the
risk classifier.  Text is modelled as `List Char` with ASCII semantics for
the character classes `\s`, `\S`, `\w` and for case-insensitive comparison
(`Char.toLower`), matching Python's behaviour on ASCII input.
-/

namespace MigraSafe

/-- Python `\s` on ASCII: space, tab, newline, carriage return, vertical tab, form feed. -/
def isSpaceChar (c : Char) : Bool :=
  c == ' ' || c == '\t' || c == '\n' || c == '\r' || c == '\x0b' || c == '\x0c'

/-- Python `\w` on ASCII: letters, digits, underscore. -/
def isWordChar (c : Char) : Bool :=
  c.isAlphanum || c == '_'

/-- Is the character at position `i` (0-based) a word character?  Out of range counts as no. -/
def isWordAt (s : List Char) (i : Nat) : Bool :=
  match s[i]? with
  | some c => isWordChar c
  | none => false

/-- Python `\b`: true at `i` iff exactly one of the adjacent positions holds a word char. -/
def wordBoundary (s : List Char) (i : Nat) : Bool :=
  (if i = 0 then false else isWordAt s (i - 1)) != isWordAt s i

/-- The regular-expression constructs used by the rule patterns of `migrasafe.py`:
case-insensitive literals, character classes, concatenation, greedy `(?:r)?`,
greedy class star/plus, negative lookahead `(?!r)` and the word boundary `\b`. -/
inductive Regex where
  | eps : Regex
  | lit : Char → Regex
  | cat : Regex → Regex → Regex
  | opt : Regex → Regex
  | starC : (Char → Bool) → Regex
  | plusC : (Char → Bool) → Regex
  | neg : Regex → Regex
  | wordB : Regex

/-- Length of the maximal prefix of `l` whose characters all satisfy `p`. -/
def runLen (p : Char → Bool) : List Char → Nat
  | [] => 0
  | c :: cs => if p c then runLen p cs + 1 else 0

/-- All end positions of a match of `r` in `s` starting at `i`, in the
backtracking priority order of Python's `re` engine (greedy: longest first;
alternatives left to right).  The head of the list is the end position
`re.match` would report. -/
def matchEnds : Regex → List Char → Nat → List Nat
  | .eps, _, i => [i]
  | .lit c, s, i =>
    match s[i]? with
    | some d => if d.toLower == c.toLower then [i + 1] else []
    | none => []
  | .cat r1 r2, s, i => (matchEnds r1 s i).flatMap (fun m => matchEnds r2 s m)
  | .opt r, s, i => matchEnds r s i ++ [i]
  | .starC p, s, i =>
    (List.range (runLen p (s.drop i) + 1)).map (fun k => i + runLen p (s.drop i) - k)
  | .plusC p, s, i =>
    (List.range (runLen p (s.drop i))).map (fun k => i + runLen p (s.drop i) - k)
  | .neg r, s, i => if matchEnds r s i = [] then [i] else []
  | .wordB, s, i => if wordBoundary s i then [i] else []

/-- `re.finditer`: scan left to right, report each leftmost match `(start, end)`,
continue after the match (at least one position forward). -/
def scanFrom (r : Regex) (s : List Char) : Nat → Nat → List (Nat × Nat)
  | 0, _ => []
  | fuel + 1, i =>
    if s.length < i then []
    else
      match matchEnds r s i with
      | [] => scanFrom r s fuel (i + 1)
      | e :: _ => (i, e) :: scanFrom r s fuel (max e (i + 1))

def scan (r : Regex) (s : List Char) : List (Nat × Nat) :=
  scanFrom r s (s.length + 1) 0

/-- Case-insensitive literal string, e.g. `litStr "ALTER"` for the pattern text `ALTER`. -/
def litStr (t : String) : Regex :=
  t.data.foldr (fun c r => Regex.cat (Regex.lit c) r) Regex.eps

/-- Sequence of regexes (plain concatenation). -/
def rseq (rs : List Regex) : Regex :=
  rs.foldr Regex.cat Regex.eps

/-- `\s+` -/
def sp1 : Regex := Regex.plusC isSpaceChar
/-- `\s*` -/
def sp0 : Regex := Regex.starC isSpaceChar
/-- `\S+` -/
def nsp1 : Regex := Regex.plusC (fun c => !isSpaceChar c)
/-- `\w+` -/
def wd1 : Regex := Regex.plusC isWordChar
/-- `[^;]*` -/
def nsemi0 : Regex := Regex.starC (fun c => !(c == ';'))

inductive Severity where
  | CRITICAL : Severity
  | HIGH : Severity
  | MEDIUM : Severity
  | LOW : Severity
deriving DecidableEq, Repr

structure Finding where
  rule_id : String
  severity : Severity
  score : Int
  line : Nat
  message : String
  sql_snippet : String
  remediation : String
deriving DecidableEq, Repr

structure AnalysisResult where
  file_path : String
  findings : List Finding
deriving DecidableEq, Repr

def AnalysisResult.total_score (r : AnalysisResult) : Int :=
  (r.findings.map Finding.score).sum

structure Rule where
  id : String
  severity : Severity
  score : Int
  pattern : Regex
  message : String
  remediation : String

/-- Body of MS001's negative lookahead: `[^;]*\bDEFAULT\b`. -/
def ms001NegPat : Regex :=
  rseq [nsemi0, Regex.wordB, litStr "DEFAULT", Regex.wordB]

/-- MS001's pattern without the final lookahead:
`ALTER\s+TABLE\s+\S+\s+ADD\s+(?:COLUMN\s+)?\w+\s+\w+[^;]*\bNOT\s+NULL\b`. -/
def ms001PrefixList : List Regex :=
  [litStr "ALTER", sp1, litStr "TABLE", sp1, nsp1, sp1, litStr "ADD", sp1,
   Regex.opt (rseq [litStr "COLUMN", sp1]), wd1, sp1, wd1, nsemi0,
   Regex.wordB, litStr "NOT", sp1, litStr "NULL", Regex.wordB]

/-- `ALTER\s+TABLE\s+\S+\s+ADD\s+(?:COLUMN\s+)?\w+\s+\w+[^;]*\bNOT\s+NULL\b(?![^;]*\bDEFAULT\b)` -/
def ms001Pat : Regex :=
  rseq (ms001PrefixList ++ [Regex.neg ms001NegPat])

/-- `ALTER\s+TABLE\s+\S+\s+DROP\s+COLUMN\s+\w+` -/
def ms002Pat : Regex :=
  rseq [litStr "ALTER", sp1, litStr "TABLE", sp1, nsp1, sp1,
        litStr "DROP", sp1, litStr "COLUMN", sp1, wd1]

/-- MS003's pattern without the final lookahead: `CREATE\s+(?:UNIQUE\s+)?INDEX\s+`. -/
def ms003PrefixList : List Regex :=
  [litStr "CREATE", sp1, Regex.opt (rseq [litStr "UNIQUE", sp1]), litStr "INDEX", sp1]

/-- `CREATE\s+(?:UNIQUE\s+)?INDEX\s+(?!CONCURRENTLY)` -/
def ms003Pat : Regex :=
  rseq (ms003PrefixList ++ [Regex.neg (litStr "CONCURRENTLY")])

/-- `ALTER\s+TABLE\s+\S+\s+RENAME\s+COLUMN\s+\w+` -/
def ms004Pat : Regex :=
  rseq [litStr "ALTER", sp1, litStr "TABLE", sp1, nsp1, sp1,
        litStr "RENAME", sp1, litStr "COLUMN", sp1, wd1]

/-- `DROP\s+TABLE\s+(?:IF\s+EXISTS\s+)?\w+` -/
def ms005Pat : Regex :=
  rseq [litStr "DROP", sp1, litStr "TABLE", sp1,
        Regex.opt (rseq [litStr "IF", sp1, litStr "EXISTS", sp1]), wd1]

/-- `ALTER\s+TABLE\s+\S+\s+ALTER\s+COLUMN\s+\w+\s+(?:SET\s+DATA\s+)?TYPE` -/
def ms006Pat : Regex :=
  rseq [litStr "ALTER", sp1, litStr "TABLE", sp1, nsp1, sp1,
        litStr "ALTER", sp1, litStr "COLUMN", sp1, wd1, sp1,
        Regex.opt (rseq [litStr "SET", sp1, litStr "DATA", sp1]), litStr "TYPE"]

/-- `ALTER\s+TABLE\s+\S+\s+ADD\s+(?:CONSTRAINT\s+\w+\s+)?UNIQUE` -/
def ms007Pat : Regex :=
  rseq [litStr "ALTER", sp1, litStr "TABLE", sp1, nsp1, sp1,
        litStr "ADD", sp1, Regex.opt (rseq [litStr "CONSTRAINT", sp1, wd1, sp1]),
        litStr "UNIQUE"]

/-- `RunPython\s*\(\s*\w+\s*\)` -/
def ms101Pat : Regex :=
  rseq [litStr "RunPython", sp0, Regex.lit '(', sp0, wd1, sp0, Regex.lit ')']

def ms001Rule : Rule :=
  ⟨"MS001", Severity.CRITICAL, 40, ms001Pat,
   "ADD NOT NULL column without DEFAULT — fails on non-empty tables",
   "Add DEFAULT value or split: add nullable -> backfill -> SET NOT NULL"⟩

def ms002Rule : Rule :=
  ⟨"MS002", Severity.HIGH, 30, ms002Pat,
   "DROP COLUMN is backward-incompatible; running code may still reference it",
   "Expand-contract: stop reading -> deploy -> drop in later migration"⟩

def ms003Rule : Rule :=
  ⟨"MS003", Severity.HIGH, 25, ms003Pat,
   "CREATE INDEX without CONCURRENTLY locks the table for writes",
   "Use CREATE INDEX CONCURRENTLY to avoid blocking writes"⟩

def ms004Rule : Rule :=
  ⟨"MS004", Severity.HIGH, 30, ms004Pat,
   "RENAME COLUMN is backward-incompatible; old code uses old name",
   "Add new column -> copy data -> update code -> drop old column"⟩

def ms005Rule : Rule :=
  ⟨"MS005", Severity.CRITICAL, 50, ms005Pat,
   "DROP TABLE causes irreversible data loss",
   "Ensure all services stopped using table; consider renaming first"⟩

def ms006Rule : Rule :=
  ⟨"MS006", Severity.HIGH, 35, ms006Pat,
   "ALTER COLUMN TYPE may cause full table rewrite and lock",
   "Use expand-contract or ensure cast is safe (e.g. varchar->text)"⟩

def ms007Rule : Rule :=
  ⟨"MS007", Severity.MEDIUM, 20, ms007Pat,
   "ADD UNIQUE constraint requires full table scan and lock",
   "Create UNIQUE INDEX CONCURRENTLY first, then ADD CONSTRAINT USING INDEX"⟩

def ms101Rule : Rule :=
  ⟨"MS101", Severity.MEDIUM, 20, ms101Pat,
   "RunPython without reverse function makes migration irreversible",
   "Add reverse: RunPython(forward, reverse) or RunPython(forward, RunPython.noop)"⟩

/-- The rule catalog `RULES` of `migrasafe.py`, in source order. -/
def RULES : List Rule :=
  [ms001Rule, ms002Rule, ms003Rule, ms004Rule,
   ms005Rule, ms006Rule, ms007Rule, ms101Rule]

/-- Python `str.strip()` on ASCII whitespace. -/
def stripChars (l : List Char) : List Char :=
  ((l.dropWhile isSpaceChar).reverse.dropWhile isSpaceChar).reverse

/-- One finding for the match `(start, stop)` of rule `ru`:
`line = sql[:start].count "\n" + 1`, `snippet = match.group(0).strip()[:80]`. -/
def mkFinding (ru : Rule) (s : List Char) (p : Nat × Nat) : Finding :=
  { rule_id := ru.id, severity := ru.severity, score := ru.score,
    line := (s.take p.1).count '\n' + 1,
    message := ru.message,
    sql_snippet := String.mk ((stripChars ((s.drop p.1).take (p.2 - p.1))).take 80),
    remediation := ru.remediation }

/-- All findings of one rule on one text, in order of appearance. -/
def ruleFindings (ru : Rule) (s : List Char) : List Finding :=
  (scan ru.pattern s).map (mkFinding ru s)

/-- Python `str.startswith`: `pre.data` is a prefix of `s.data`. -/
def strStartsWith (s pre : String) : Bool :=
  s.data.take pre.data.length == pre.data

/-- `active = [r for r in RULES if include_django or not r[0].startswith("MS1")]` -/
def activeRules (include_django : Bool) : List Rule :=
  RULES.filter (fun r => include_django || !(strStartsWith r.id "MS1"))

/-- `analyze_sql` of `migrasafe.py`. -/
def analyze_sql (sql : String) (file_path : String := "<stdin>")
    (include_django : Bool := true) : AnalysisResult :=
  { file_path := file_path,
    findings := (activeRules include_django).flatMap (fun ru => ruleFindings ru sql.data) }

/-- `risk_label` of `migrasafe.py`. -/
def risk_label (score : Int) : String :=
  if score ≥ 50 then "CRITICAL"
  else if score ≥ 30 then "HIGH"
  else if score ≥ 15 then "MEDIUM"
  else "LOW"

/-! ## Specification-side predicates

Plain (regex-free) statements of the matching conditions the spec describes,
used to characterise what the rule patterns accept. -/

/-- Case-insensitive occurrence: the characters of `t` appear at position `i`
of `s`, compared via `Char.toLower`. -/
def ciAt (s : List Char) : Nat → List Char → Bool
  | _, [] => true
  | i, c :: cs =>
    match s[i]? with
    | some d => d.toLower == c.toLower && ciAt s (i + 1) cs
    | none => false

/-- Every position `k` with `a ≤ k < b` holds a character of `s` satisfying `q`. -/
def allRange (q : Char → Bool) (s : List Char) (a b : Nat) : Prop :=
  ∀ k, a ≤ k → k < b → ∃ c, s[k]? = some c ∧ q c = true

/-- A `DEFAULT` keyword (word-boundary delimited, case-insensitive) occurs at
position `j` of `s`. -/
def defaultKeywordAt (s : List Char) (j : Nat) : Prop :=
  wordBoundary s j = true ∧ ciAt s j ("DEFAULT".data) = true ∧
    wordBoundary s (j + 7) = true

/-- Spec of MS001's suppression condition: no `DEFAULT` keyword appears between
position `e` (the end of the matched `NOT NULL`) and the next statement
terminator `;` or the end of input. -/
def noDefaultInStmt (s : List Char) (e : Nat) : Prop :=
  ¬ ∃ j, e ≤ j ∧ allRange (fun c => !(c == ';')) s e j ∧ defaultKeywordAt s j

/-- Spec of MS003's suppression condition: `CONCURRENTLY` is present
(case-insensitively) immediately at position `e`. -/
def concurrentlyAt (s : List Char) (e : Nat) : Prop :=
  ciAt s e ("CONCURRENTLY".data) = true

/-- The character at position `k` of `s` equals `c` up to `Char.toLower`. -/
def charCIAt (s : List Char) (k : Nat) (c : Char) : Prop :=
  ∃ d, s[k]? = some d ∧ d.toLower = c.toLower

/-- Spec of MS101's trigger: the span `[i, e)` of `s` holds a `RunPython` call
with exactly one bare identifier argument — `RunPython`, optional whitespace,
`(`, optional whitespace, a nonempty run of identifier characters, optional
whitespace, `)`. -/
def runPythonSingleArg (s : List Char) (i e : Nat) : Prop :=
  ciAt s i ("RunPython".data) = true ∧
  ∃ p q r t,
    i + 9 ≤ p ∧ allRange isSpaceChar s (i + 9) p ∧
    charCIAt s p '(' ∧
    p + 1 ≤ q ∧ allRange isSpaceChar s (p + 1) q ∧
    q < r ∧ allRange isWordChar s q r ∧
    r ≤ t ∧ allRange isSpaceChar s r t ∧
    charCIAt s t ')' ∧ e = t + 1

/-- Rank of a risk label in the severity order LOW < MEDIUM < HIGH < CRITICAL. -/
def labelRank (l : String) : Nat :=
  if l = "CRITICAL" then 4
  else if l = "HIGH" then 3
  else if l = "MEDIUM" then 2
  else 1

/-! ## Matcher lemmas -/

theorem mem_matchEnds_eps {s : List Char} {i e : Nat} :
    e ∈ matchEnds Regex.eps s i ↔ e = i := by
  simp [matchEnds]

theorem mem_matchEnds_lit {c : Char} {s : List Char} {i e : Nat} :
    e ∈ matchEnds (Regex.lit c) s i ↔ charCIAt s i c ∧ e = i + 1 := by
  unfold matchEnds charCIAt
  rcases h : s[i]? with _ | d
  · simp [h]
  · by_cases hd : d.toLower = c.toLower <;> simp [h, hd]

theorem mem_matchEnds_cat {r1 r2 : Regex} {s : List Char} {i e : Nat} :
    e ∈ matchEnds (Regex.cat r1 r2) s i ↔
      ∃ m, m ∈ matchEnds r1 s i ∧ e ∈ matchEnds r2 s m := by
  simp [matchEnds]

theorem mem_matchEnds_opt {r : Regex} {s : List Char} {i e : Nat} :
    e ∈ matchEnds (Regex.opt r) s i ↔ e ∈ matchEnds r s i ∨ e = i := by
  simp [matchEnds]

theorem mem_matchEnds_neg {r : Regex} {s : List Char} {i e : Nat} :
    e ∈ matchEnds (Regex.neg r) s i ↔ matchEnds r s i = [] ∧ e = i := by
  by_cases h : matchEnds r s i = [] <;> simp [matchEnds, h]

theorem mem_matchEnds_wordB {s : List Char} {i e : Nat} :
    e ∈ matchEnds Regex.wordB s i ↔ wordBoundary s i = true ∧ e = i := by
  by_cases h : wordBoundary s i = true <;> simp [matchEnds, h]

theorem le_runLen_iff (p : Char → Bool) (l : List Char) (m : Nat) :
    m ≤ runLen p l ↔
      m ≤ l.length ∧ ∀ k, k < m → ∃ c, l[k]? = some c ∧ p c = true := by
  induction l generalizing m with
  | nil =>
    constructor
    · intro h
      have hm : m = 0 := by simpa [runLen] using h
      exact ⟨by simp [hm], fun k hk => absurd hk (by omega)⟩
    · intro h
      simpa [runLen] using h.1
  | cons c cs ih =>
    cases m with
    | zero => simp
    | succ m' =>
      cases hc : p c with
      | true =>
        have hrl : runLen p (c :: cs) = runLen p cs + 1 := by simp [runLen, hc]
        constructor
        · intro h
          obtain ⟨h1, h2⟩ := (ih m').mp (by omega)
          refine ⟨by simp; omega, fun k hk => ?_⟩
          cases k with
          | zero => exact ⟨c, by simp, hc⟩
          | succ j => simpa using h2 j (by omega)
        · rintro ⟨h1, h2⟩
          have h2' : ∀ k, k < m' → ∃ d, cs[k]? = some d ∧ p d = true := by
            intro k hk
            simpa using h2 (k + 1) (by omega)
          have h3 := (ih m').mpr ⟨by simp at h1; omega, h2'⟩
          omega
      | false =>
        have hrl : runLen p (c :: cs) = 0 := by simp [runLen, hc]
        constructor
        · intro h
          omega
        · rintro ⟨h1, h2⟩
          obtain ⟨d, hd, hpd⟩ := h2 0 (by omega)
          have hcd : c = d := by simpa using hd
          rw [← hcd, hc] at hpd
          simp at hpd

theorem runLen_window {p : Char → Bool} {s : List Char} {i e : Nat} (h1 : i ≤ e) :
    e - i ≤ runLen p (s.drop i) ↔ allRange p s i e := by
  rw [le_runLen_iff]
  simp only [List.getElem?_drop, List.length_drop]
  constructor
  · rintro ⟨h2, h3⟩ k hk1 hk2
    have h4 := h3 (k - i) (by omega)
    rwa [Nat.add_sub_cancel' hk1] at h4
  · intro h2
    refine ⟨?_, fun k hk => h2 (i + k) (by omega) (by omega)⟩
    rcases Nat.eq_or_lt_of_le h1 with he | hlt
    · omega
    · obtain ⟨c, hc, _⟩ := h2 (e - 1) (by omega) (by omega)
      have := (List.getElem?_eq_some.mp hc).1
      omega

theorem mem_matchEnds_starC {p : Char → Bool} {s : List Char} {i e : Nat} :
    e ∈ matchEnds (Regex.starC p) s i ↔ i ≤ e ∧ allRange p s i e := by
  have step1 : e ∈ matchEnds (Regex.starC p) s i ↔
      i ≤ e ∧ e - i ≤ runLen p (s.drop i) := by
    simp only [matchEnds, List.mem_map, List.mem_range]
    constructor
    · rintro ⟨k, hk, he⟩
      omega
    · rintro ⟨h1, h2⟩
      exact ⟨runLen p (s.drop i) - (e - i), by omega, by omega⟩
  rw [step1]
  constructor
  · rintro ⟨h1, h2⟩
    exact ⟨h1, (runLen_window h1).mp h2⟩
  · rintro ⟨h1, h2⟩
    exact ⟨h1, (runLen_window h1).mpr h2⟩

theorem mem_matchEnds_plusC {p : Char → Bool} {s : List Char} {i e : Nat} :
    e ∈ matchEnds (Regex.plusC p) s i ↔ i < e ∧ allRange p s i e := by
  have step1 : e ∈ matchEnds (Regex.plusC p) s i ↔
      i < e ∧ e - i ≤ runLen p (s.drop i) := by
    simp only [matchEnds, List.mem_map, List.mem_range]
    constructor
    · rintro ⟨k, hk, he⟩
      omega
    · rintro ⟨h1, h2⟩
      exact ⟨runLen p (s.drop i) - (e - i), by omega, by omega⟩
  rw [step1]
  constructor
  · rintro ⟨h1, h2⟩
    exact ⟨h1, (runLen_window (by omega)).mp h2⟩
  · rintro ⟨h1, h2⟩
    exact ⟨h1, (runLen_window (by omega)).mpr h2⟩

theorem mem_matchEnds_litStrAux (cs : List Char) (s : List Char) (i e : Nat) :
    e ∈ matchEnds (cs.foldr (fun c r => Regex.cat (Regex.lit c) r) Regex.eps) s i ↔
      ciAt s i cs = true ∧ e = i + cs.length := by
  induction cs generalizing i with
  | nil => simp [matchEnds, ciAt]
  | cons c cs ih =>
    simp only [List.foldr]
    rw [mem_matchEnds_cat]
    constructor
    · rintro ⟨m, hm1, hm2⟩
      rw [mem_matchEnds_lit] at hm1
      obtain ⟨⟨d, hd, hdl⟩, rfl⟩ := hm1
      rw [ih] at hm2
      refine ⟨?_, by simp; omega⟩
      simp only [ciAt, hd, hdl, hm2.1]
      simp
    · rintro ⟨hci, he⟩
      rcases h : s[i]? with _ | d
      · simp [ciAt, h] at hci
      · simp only [ciAt, h, Bool.and_eq_true, beq_iff_eq] at hci
        refine ⟨i + 1, ?_, ?_⟩
        · rw [mem_matchEnds_lit]
          exact ⟨⟨d, h, hci.1⟩, rfl⟩
        · rw [ih]
          exact ⟨hci.2, by simp at he; omega⟩

theorem mem_matchEnds_litStr {t : String} {s : List Char} {i e : Nat} :
    e ∈ matchEnds (litStr t) s i ↔ ciAt s i t.data = true ∧ e = i + t.data.length :=
  mem_matchEnds_litStrAux t.data s i e

theorem matchEnds_litStr_eq_nil {t : String} {s : List Char} {e : Nat} :
    matchEnds (litStr t) s e = [] ↔ ¬ ciAt s e t.data = true := by
  rw [List.eq_nil_iff_forall_not_mem]
  constructor
  · intro h hci
    exact h (e + t.data.length) (mem_matchEnds_litStr.mpr ⟨hci, rfl⟩)
  · intro h x hx
    exact h (mem_matchEnds_litStr.mp hx).1

theorem rseq_cons (r : Regex) (L : List Regex) :
    rseq (r :: L) = Regex.cat r (rseq L) := rfl

theorem mem_matchEnds_rseq_append {L1 L2 : List Regex} {s : List Char} {i e : Nat} :
    e ∈ matchEnds (rseq (L1 ++ L2)) s i ↔
      ∃ m, m ∈ matchEnds (rseq L1) s i ∧ e ∈ matchEnds (rseq L2) s m := by
  induction L1 generalizing i with
  | nil => simp [rseq, matchEnds]
  | cons a L1 ih =>
    simp only [List.cons_append, rseq_cons, mem_matchEnds_cat]
    constructor
    · rintro ⟨m, hm, he⟩
      obtain ⟨m2, hm2, he2⟩ := ih.mp he
      exact ⟨m2, ⟨m, hm, hm2⟩, he2⟩
    · rintro ⟨m2, ⟨m, hm, hm2⟩, he2⟩
      exact ⟨m, hm, ih.mpr ⟨m2, hm2, he2⟩⟩

theorem scanFrom_sound {r : Regex} {s : List Char} :
    ∀ (fuel i : Nat) (q : Nat × Nat), q ∈ scanFrom r s fuel i →
      q.1 ≤ s.length ∧ q.2 ∈ matchEnds r s q.1 := by
  intro fuel
  induction fuel with
  | zero =>
    intro i q hq
    simp [scanFrom] at hq
  | succ fuel ih =>
    intro i q hq
    unfold scanFrom at hq
    split at hq
    · simp at hq
    · rename_i hle
      split at hq
      · exact ih _ _ hq
      · rename_i e t hme
        rcases List.mem_cons.mp hq with rfl | h
        · exact ⟨by omega, by rw [hme]; exact List.mem_cons_self _ _⟩
        · exact ih _ _ h

theorem scanFrom_complete {r : Regex} {s : List Char} :
    ∀ (fuel i : Nat), scanFrom r s fuel i = [] →
      ∀ j, i ≤ j → j ≤ s.length → j < i + fuel → matchEnds r s j = [] := by
  intro fuel
  induction fuel with
  | zero =>
    intro i h j h1 h2 h3
    omega
  | succ fuel ih =>
    intro i h j h1 h2 h3
    unfold scanFrom at h
    split at h
    · rename_i hlt
      omega
    · split at h
      · rename_i hme
        rcases Nat.eq_or_lt_of_le h1 with rfl | hlt
        · exact hme
        · exact ih (i + 1) h j (by omega) h2 (by omega)
      · simp at h

theorem scan_ne_nil_iff {r : Regex} {s : List Char} :
    scan r s ≠ [] ↔ ∃ i e, i ≤ s.length ∧ e ∈ matchEnds r s i := by
  constructor
  · intro h
    rcases hs : scan r s with _ | ⟨q, qs⟩
    · exact absurd hs h
    · have hq : q ∈ scanFrom r s (s.length + 1) 0 := by
        unfold scan at hs
        rw [hs]
        exact List.mem_cons_self _ _
      obtain ⟨h1, h2⟩ := scanFrom_sound _ _ q hq
      exact ⟨q.1, q.2, h1, h2⟩
  · rintro ⟨i, e, h1, h2⟩ hnil
    unfold scan at hnil
    rw [scanFrom_complete _ _ hnil i (Nat.zero_le i) h1 (by omega)] at h2
    simp at h2

/-! ## Aggregation lemmas -/

theorem ruleFindings_rule_id {ru : Rule} {s : List Char} {f : Finding}
    (h : f ∈ ruleFindings ru s) : f.rule_id = ru.id := by
  obtain ⟨p, _, rfl⟩ := List.mem_map.mp h
  rfl

theorem ruleFindings_score {ru : Rule} {s : List Char} {f : Finding}
    (h : f ∈ ruleFindings ru s) : f.score = ru.score := by
  obtain ⟨p, _, rfl⟩ := List.mem_map.mp h
  rfl

theorem mem_analyze_findings {sql fp : String} {b : Bool} {f : Finding} :
    f ∈ (analyze_sql sql fp b).findings ↔
      ∃ ru ∈ activeRules b, f ∈ ruleFindings ru sql.data := by
  simp [analyze_sql]

theorem activeRules_true : activeRules true = RULES := by
  simp [activeRules]

theorem activeRules_sublist (b : Bool) : (activeRules b).Sublist RULES :=
  List.filter_sublist _

theorem rules_score_pos : ∀ ru ∈ RULES, 0 < ru.score := by
  intro ru h
  simp only [RULES, List.mem_cons, List.not_mem_nil, or_false] at h
  rcases h with rfl | rfl | rfl | rfl | rfl | rfl | rfl | rfl <;> norm_num
    [ms001Rule, ms002Rule, ms003Rule, ms004Rule, ms005Rule, ms006Rule,
     ms007Rule, ms101Rule]

theorem rules_id_nodup : (RULES.map Rule.id).Nodup := by
  rw [show RULES.map Rule.id =
    ["MS001", "MS002", "MS003", "MS004", "MS005", "MS006", "MS007", "MS101"] from rfl]
  decide

theorem analyze_score_pos {sql fp : String} {b : Bool} {f : Finding}
    (h : f ∈ (analyze_sql sql fp b).findings) : 0 < f.score := by
  obtain ⟨ru, hru, hf⟩ := mem_analyze_findings.mp h
  rw [ruleFindings_score hf]
  exact rules_score_pos ru ((activeRules_sublist b).subset hru)

theorem exists_finding_iff {sql fp : String} {b : Bool} {ru : Rule}
    (hru : ru ∈ activeRules b) :
    (∃ f ∈ (analyze_sql sql fp b).findings, f.rule_id = ru.id) ↔
      scan ru.pattern sql.data ≠ [] := by
  constructor
  · rintro ⟨f, hf, hid⟩
    obtain ⟨ru', hru', hf'⟩ := mem_analyze_findings.mp hf
    have hid' : ru'.id = ru.id := by
      rw [← hid]
      exact (ruleFindings_rule_id hf').symm
    have heq : ru' = ru :=
      List.inj_on_of_nodup_map rules_id_nodup
        ((activeRules_sublist b).subset hru') ((activeRules_sublist b).subset hru) hid'
    subst heq
    intro hnil
    unfold ruleFindings at hf'
    rw [hnil] at hf'
    simp at hf'
  · intro h
    rcases hs : scan ru.pattern sql.data with _ | ⟨p, ps⟩
    · exact absurd hs h
    · refine ⟨mkFinding ru sql.data p, ?_, rfl⟩
      apply mem_analyze_findings.mpr
      refine ⟨ru, hru, ?_⟩
      unfold ruleFindings
      rw [hs]
      exact List.mem_map_of_mem _ (List.mem_cons_self _ _)

theorem ms001Rule_mem (b : Bool) : ms001Rule ∈ activeRules b := by
  apply List.mem_filter.mpr
  refine ⟨by simp [RULES], ?_⟩
  cases b <;> rfl

theorem ms003Rule_mem (b : Bool) : ms003Rule ∈ activeRules b := by
  apply List.mem_filter.mpr
  refine ⟨by simp [RULES], ?_⟩
  cases b <;> rfl

theorem ms101Rule_mem : ms101Rule ∈ activeRules true := by
  apply List.mem_filter.mpr
  exact ⟨by simp [RULES], rfl⟩

/-! ## MS001: ADD ... NOT NULL without DEFAULT -/

theorem mem_ms001Pat_iff {s : List Char} {i e : Nat} :
    e ∈ matchEnds ms001Pat s i ↔
      e ∈ matchEnds (rseq ms001PrefixList) s i ∧ matchEnds ms001NegPat s e = [] := by
  unfold ms001Pat
  rw [mem_matchEnds_rseq_append]
  constructor
  · rintro ⟨m, hm, he⟩
    rw [rseq_cons, mem_matchEnds_cat] at he
    obtain ⟨m2, hm2, he2⟩ := he
    rw [mem_matchEnds_neg] at hm2
    rw [show rseq ([] : List Regex) = Regex.eps from rfl, mem_matchEnds_eps] at he2
    obtain ⟨hnil, rfl⟩ := hm2
    subst he2
    exact ⟨hm, hnil⟩
  · rintro ⟨hm, hnil⟩
    refine ⟨e, hm, ?_⟩
    rw [rseq_cons, mem_matchEnds_cat]
    exact ⟨e, mem_matchEnds_neg.mpr ⟨hnil, rfl⟩, mem_matchEnds_eps.mpr rfl⟩

theorem mem_ms001NegPat_iff {s : List Char} {e x : Nat} :
    x ∈ matchEnds ms001NegPat s e ↔
      ∃ j, e ≤ j ∧ allRange (fun c => !(c == ';')) s e j ∧ defaultKeywordAt s j ∧
        x = j + 7 := by
  have hlen : ("DEFAULT".data.length) = 7 := rfl
  unfold ms001NegPat nsemi0
  rw [rseq_cons, mem_matchEnds_cat]
  constructor
  · rintro ⟨j, hj, hrest⟩
    rw [mem_matchEnds_starC] at hj
    rw [rseq_cons, mem_matchEnds_cat] at hrest
    obtain ⟨m2, hb1, hrest⟩ := hrest
    rw [mem_matchEnds_wordB] at hb1
    obtain ⟨hb1, he2⟩ := hb1
    rw [rseq_cons, mem_matchEnds_cat] at hrest
    obtain ⟨m3, hlit, hrest⟩ := hrest
    rw [mem_matchEnds_litStr] at hlit
    obtain ⟨hci, he3⟩ := hlit
    rw [rseq_cons, mem_matchEnds_cat] at hrest
    obtain ⟨m4, hb2, hx⟩ := hrest
    rw [mem_matchEnds_wordB] at hb2
    obtain ⟨hb2, he4⟩ := hb2
    rw [show rseq ([] : List Regex) = Regex.eps from rfl, mem_matchEnds_eps] at hx
    have hm3 : m3 = j + 7 := by rw [he3, he2, hlen]
    refine ⟨j, hj.1, hj.2, ⟨hb1, ?_, ?_⟩, ?_⟩
    · rw [← he2]
      exact hci
    · rw [← hm3]
      exact hb2
    · omega
  · rintro ⟨j, hj1, hj2, ⟨hb1, hci, hb2⟩, rfl⟩
    refine ⟨j, mem_matchEnds_starC.mpr ⟨hj1, hj2⟩, ?_⟩
    rw [rseq_cons, mem_matchEnds_cat]
    refine ⟨j, mem_matchEnds_wordB.mpr ⟨hb1, rfl⟩, ?_⟩
    rw [rseq_cons, mem_matchEnds_cat]
    refine ⟨j + 7, mem_matchEnds_litStr.mpr ⟨hci, by rw [hlen]⟩, ?_⟩
    rw [rseq_cons, mem_matchEnds_cat]
    refine ⟨j + 7, mem_matchEnds_wordB.mpr ⟨hb2, rfl⟩, ?_⟩
    rw [show rseq ([] : List Regex) = Regex.eps from rfl, mem_matchEnds_eps]

theorem ms001Neg_nil_iff {s : List Char} {e : Nat} :
    matchEnds ms001NegPat s e = [] ↔ noDefaultInStmt s e := by
  rw [List.eq_nil_iff_forall_not_mem]
  unfold noDefaultInStmt
  constructor
  · rintro h ⟨j, hj1, hj2, hj3⟩
    exact h (j + 7) (mem_ms001NegPat_iff.mpr ⟨j, hj1, hj2, hj3, rfl⟩)
  · rintro h x hx
    obtain ⟨j, hj1, hj2, hj3, rfl⟩ := mem_ms001NegPat_iff.mp hx
    exact h ⟨j, hj1, hj2, hj3⟩

theorem ciAt_cons_lt_length {s : List Char} {i : Nat} {c : Char} {cs : List Char}
    (h : ciAt s i (c :: cs) = true) : i < s.length := by
  rcases hg : s[i]? with _ | d
  · simp [ciAt, hg] at h
  · exact (List.getElem?_eq_some.mp hg).1

theorem rseq_litStr_head_lt {t : String} {L : List Regex} {s : List Char} {i e : Nat}
    (h : e ∈ matchEnds (rseq (litStr t :: L)) s i) (c : Char) (cs : List Char)
    (ht : t.data = c :: cs) : i < s.length := by
  rw [rseq_cons, mem_matchEnds_cat] at h
  obtain ⟨m, hm, _⟩ := h
  rw [mem_matchEnds_litStr] at hm
  rw [ht] at hm
  exact ciAt_cons_lt_length hm.1

/-- C1: an MS001 finding is produced for an occurrence of
`ALTER TABLE ... ADD [COLUMN] <name> <type> ... NOT NULL` exactly when no
`DEFAULT` keyword appears between the `NOT NULL` and the next semicolon or
end of input: every reported MS001 match satisfies the no-DEFAULT condition
at its end, and conversely any position where the prefix pattern matches with
the no-DEFAULT condition yields an MS001 finding; the spec's positive and
negative examples behave as stated, and a `DEFAULT` appearing only after the
terminating semicolon does not suppress the finding. -/
theorem ms001_fires_iff_no_default :
    (∀ sql : String, ∀ q ∈ scan ms001Pat sql.data,
        q.2 ∈ matchEnds (rseq ms001PrefixList) sql.data q.1 ∧
          noDefaultInStmt sql.data q.2)
    ∧ (∀ (sql fp : String) (b : Bool) (i e : Nat),
        e ∈ matchEnds (rseq ms001PrefixList) sql.data i →
        noDefaultInStmt sql.data e →
        ∃ f ∈ (analyze_sql sql fp b).findings, f.rule_id = "MS001")
    ∧ (∃ f ∈ (analyze_sql "ALTER TABLE users ADD COLUMN email VARCHAR(255) NOT NULL;").findings,
        f.rule_id = "MS001")
    ∧ (analyze_sql "ALTER TABLE users ADD COLUMN email VARCHAR(255) NOT NULL;").total_score ≥ 40
    ∧ (¬ ∃ f ∈ (analyze_sql "ALTER TABLE users ADD COLUMN email VARCHAR(255) NOT NULL DEFAULT '';").findings,
        f.rule_id = "MS001")
    ∧ (∃ f ∈ (analyze_sql "ALTER TABLE users ADD COLUMN email VARCHAR(255) NOT NULL; UPDATE t SET x = DEFAULT;").findings,
        f.rule_id = "MS001") := by
  refine ⟨?_, ?_, by decide, by decide, by decide, by decide⟩
  · intro sql q hq
    have hq' : q ∈ scanFrom ms001Pat sql.data (sql.data.length + 1) 0 := hq
    have h2 := (scanFrom_sound _ _ q hq').2
    rw [mem_ms001Pat_iff] at h2
    exact ⟨h2.1, ms001Neg_nil_iff.mp h2.2⟩
  · intro sql fp b i e h1 h2
    have hiff := @exists_finding_iff sql fp b ms001Rule (ms001Rule_mem b)
    rw [show ms001Rule.id = "MS001" from rfl,
        show ms001Rule.pattern = ms001Pat from rfl] at hiff
    rw [hiff, scan_ne_nil_iff]
    refine ⟨i, e, ?_, ?_⟩
    · exact Nat.le_of_lt (rseq_litStr_head_lt h1 'A' ['L', 'T', 'E', 'R'] rfl)
    · rw [mem_ms001Pat_iff]
      exact ⟨h1, ms001Neg_nil_iff.mpr h2⟩

/-- Witness for C1 at the concrete statement `ALTER TABLE t ADD c INT NOT NULL`:
its single MS001 match satisfies the no-DEFAULT condition, and that condition in
turn forces the MS001 finding. -/
theorem ms001_fires_iff_no_default_witness :
    noDefaultInStmt ("ALTER TABLE t ADD c INT NOT NULL".data) 32
    ∧ ∃ f ∈ (analyze_sql "ALTER TABLE t ADD c INT NOT NULL" "<stdin>" true).findings,
        f.rule_id = "MS001" := by
  have h1 := ms001_fires_iff_no_default.1 "ALTER TABLE t ADD c INT NOT NULL"
    (0, 32) (by decide)
  exact ⟨h1.2,
    ms001_fires_iff_no_default.2.1 "ALTER TABLE t ADD c INT NOT NULL" "<stdin>" true
      0 32 (by decide) h1.2⟩

/-! ## MS003: CREATE INDEX without CONCURRENTLY -/

theorem mem_ms003Pat_iff {s : List Char} {i e : Nat} :
    e ∈ matchEnds ms003Pat s i ↔
      e ∈ matchEnds (rseq ms003PrefixList) s i ∧
        matchEnds (litStr "CONCURRENTLY") s e = [] := by
  unfold ms003Pat
  rw [mem_matchEnds_rseq_append]
  constructor
  · rintro ⟨m, hm, he⟩
    rw [rseq_cons, mem_matchEnds_cat] at he
    obtain ⟨m2, hm2, he2⟩ := he
    rw [mem_matchEnds_neg] at hm2
    rw [show rseq ([] : List Regex) = Regex.eps from rfl, mem_matchEnds_eps] at he2
    obtain ⟨hnil, rfl⟩ := hm2
    subst he2
    exact ⟨hm, hnil⟩
  · rintro ⟨hm, hnil⟩
    refine ⟨e, hm, ?_⟩
    rw [rseq_cons, mem_matchEnds_cat]
    exact ⟨e, mem_matchEnds_neg.mpr ⟨hnil, rfl⟩, mem_matchEnds_eps.mpr rfl⟩

/-- C5: an MS003 finding is produced for an occurrence of
`CREATE [UNIQUE] INDEX ` except when `CONCURRENTLY` immediately follows:
every reported MS003 match satisfies the no-CONCURRENTLY condition at its end,
any position where the prefix pattern matches without `CONCURRENTLY` following
yields an MS003 finding, and the spec's positive and negative examples behave
as stated. -/
theorem ms003_fires_unless_concurrently :
    (∀ sql : String, ∀ q ∈ scan ms003Pat sql.data,
        q.2 ∈ matchEnds (rseq ms003PrefixList) sql.data q.1 ∧
          ¬ concurrentlyAt sql.data q.2)
    ∧ (∀ (sql fp : String) (b : Bool) (i e : Nat),
        e ∈ matchEnds (rseq ms003PrefixList) sql.data i →
        ¬ concurrentlyAt sql.data e →
        ∃ f ∈ (analyze_sql sql fp b).findings, f.rule_id = "MS003")
    ∧ (∃ f ∈ (analyze_sql "CREATE INDEX idx ON users (email);").findings,
        f.rule_id = "MS003")
    ∧ (¬ ∃ f ∈ (analyze_sql "CREATE INDEX CONCURRENTLY idx ON users (email);").findings,
        f.rule_id = "MS003") := by
  refine ⟨?_, ?_, by decide, by decide⟩
  · intro sql q hq
    have hq' : q ∈ scanFrom ms003Pat sql.data (sql.data.length + 1) 0 := hq
    have h2 := (scanFrom_sound _ _ q hq').2
    rw [mem_ms003Pat_iff] at h2
    exact ⟨h2.1, matchEnds_litStr_eq_nil.mp h2.2⟩
  · intro sql fp b i e h1 h2
    have hiff := @exists_finding_iff sql fp b ms003Rule (ms003Rule_mem b)
    rw [show ms003Rule.id = "MS003" from rfl,
        show ms003Rule.pattern = ms003Pat from rfl] at hiff
    rw [hiff, scan_ne_nil_iff]
    refine ⟨i, e, ?_, ?_⟩
    · exact Nat.le_of_lt (rseq_litStr_head_lt h1 'C' ['R', 'E', 'A', 'T', 'E'] rfl)
    · rw [mem_ms003Pat_iff]
      exact ⟨h1, matchEnds_litStr_eq_nil.mpr h2⟩

/-- Witness for C5 at the concrete statement `CREATE INDEX i ON t(c);`: its
single MS003 match is not followed by `CONCURRENTLY`, and that condition in
turn forces the MS003 finding. -/
theorem ms003_fires_unless_concurrently_witness :
    ¬ concurrentlyAt ("CREATE INDEX i ON t(c);".data) 13
    ∧ ∃ f ∈ (analyze_sql "CREATE INDEX i ON t(c);" "<stdin>" true).findings,
        f.rule_id = "MS003" := by
  have h1 := ms003_fires_unless_concurrently.1 "CREATE INDEX i ON t(c);"
    (0, 13) (by decide)
  exact ⟨h1.2,
    ms003_fires_unless_concurrently.2.1 "CREATE INDEX i ON t(c);" "<stdin>" true
      0 13 (by decide) h1.2⟩

/-! ## MS101: RunPython with a single bare argument -/

theorem mem_ms101Pat_iff {s : List Char} {i e : Nat} :
    e ∈ matchEnds ms101Pat s i ↔ runPythonSingleArg s i e := by
  have hlen9 : ("RunPython".data.length) = 9 := rfl
  unfold ms101Pat runPythonSingleArg sp0 wd1
  constructor
  · intro h
    rw [rseq_cons, mem_matchEnds_cat] at h
    obtain ⟨m1, h1, h⟩ := h
    rw [mem_matchEnds_litStr] at h1
    obtain ⟨hci, he1⟩ := h1
    rw [rseq_cons, mem_matchEnds_cat] at h
    obtain ⟨p, h2, h⟩ := h
    rw [mem_matchEnds_starC] at h2
    rw [rseq_cons, mem_matchEnds_cat] at h
    obtain ⟨m3, h3, h⟩ := h
    rw [mem_matchEnds_lit] at h3
    obtain ⟨hlp, he3⟩ := h3
    rw [rseq_cons, mem_matchEnds_cat] at h
    obtain ⟨q, h4, h⟩ := h
    rw [mem_matchEnds_starC] at h4
    rw [rseq_cons, mem_matchEnds_cat] at h
    obtain ⟨r, h5, h⟩ := h
    rw [mem_matchEnds_plusC] at h5
    rw [rseq_cons, mem_matchEnds_cat] at h
    obtain ⟨t, h6, h⟩ := h
    rw [mem_matchEnds_starC] at h6
    rw [rseq_cons, mem_matchEnds_cat] at h
    obtain ⟨m7, h7, h⟩ := h
    rw [mem_matchEnds_lit] at h7
    obtain ⟨hrp, he7⟩ := h7
    rw [show rseq ([] : List Regex) = Regex.eps from rfl, mem_matchEnds_eps] at h
    rw [he1, hlen9] at h2
    rw [he3] at h4
    refine ⟨hci, p, q, r, t, h2.1, h2.2, hlp, h4.1, h4.2, h5.1, h5.2, h6.1, h6.2,
      hrp, by omega⟩
  · rintro ⟨hci, p, q, r, t, hp1, hp2, hlp, hq1, hq2, hr1, hr2, ht1, ht2, hrp, rfl⟩
    rw [rseq_cons, mem_matchEnds_cat]
    refine ⟨i + 9, mem_matchEnds_litStr.mpr ⟨hci, by rw [hlen9]⟩, ?_⟩
    rw [rseq_cons, mem_matchEnds_cat]
    refine ⟨p, mem_matchEnds_starC.mpr ⟨hp1, hp2⟩, ?_⟩
    rw [rseq_cons, mem_matchEnds_cat]
    refine ⟨p + 1, mem_matchEnds_lit.mpr ⟨hlp, rfl⟩, ?_⟩
    rw [rseq_cons, mem_matchEnds_cat]
    refine ⟨q, mem_matchEnds_starC.mpr ⟨hq1, hq2⟩, ?_⟩
    rw [rseq_cons, mem_matchEnds_cat]
    refine ⟨r, mem_matchEnds_plusC.mpr ⟨hr1, hr2⟩, ?_⟩
    rw [rseq_cons, mem_matchEnds_cat]
    refine ⟨t, mem_matchEnds_starC.mpr ⟨ht1, ht2⟩, ?_⟩
    rw [rseq_cons, mem_matchEnds_cat]
    refine ⟨t + 1, mem_matchEnds_lit.mpr ⟨hrp, rfl⟩, ?_⟩
    rw [show rseq ([] : List Regex) = Regex.eps from rfl, mem_matchEnds_eps]

/-- C6: rule MS101 matches a `RunPython` call exactly when it has exactly one
bare identifier argument between the parentheses: an MS101 finding exists iff
some span of the text is `RunPython`, optional whitespace, `(`, optional
whitespace, one nonempty identifier, optional whitespace, `)`; a call with two
arguments (a forward and a reverse function) produces no MS101 finding. -/
theorem ms101_single_arg_iff :
    (∀ sql fp : String,
        (∃ f ∈ (analyze_sql sql fp true).findings, f.rule_id = "MS101") ↔
          ∃ i e, runPythonSingleArg sql.data i e)
    ∧ (∃ f ∈ (analyze_sql "RunPython(populate_data)").findings, f.rule_id = "MS101")
    ∧ (¬ ∃ f ∈ (analyze_sql "RunPython(forward, reverse)").findings,
        f.rule_id = "MS101") := by
  refine ⟨?_, by decide, by decide⟩
  intro sql fp
  have hiff := @exists_finding_iff sql fp true ms101Rule ms101Rule_mem
  rw [show ms101Rule.id = "MS101" from rfl,
      show ms101Rule.pattern = ms101Pat from rfl] at hiff
  rw [hiff, scan_ne_nil_iff]
  constructor
  · rintro ⟨i, e, _, hm⟩
    exact ⟨i, e, mem_ms101Pat_iff.mp hm⟩
  · rintro ⟨i, e, hm⟩
    refine ⟨i, e, ?_, mem_ms101Pat_iff.mpr hm⟩
    have hci : ciAt sql.data i ('R' :: "unPython".data) = true := hm.1
    exact Nat.le_of_lt (ciAt_cons_lt_length hci)

/-- Witness for C6: on `RunPython(populate_data)` the MS101 finding exists, so
the characterisation yields a concrete single-bare-argument span. -/
theorem ms101_single_arg_iff_witness :
    ∃ i e, runPythonSingleArg ("RunPython(populate_data)".data) i e :=
  (ms101_single_arg_iff.1 "RunPython(populate_data)" "<stdin>").mp (by decide)

/-! ## Framework-rule exclusion and per-rule accumulation -/

theorem filter_flatMap_eq {α β : Type} (p : α → Bool) (q : β → Bool) (g : α → List β) :
    ∀ l : List α, (∀ a ∈ l, ∀ b ∈ g a, q b = p a) →
      (l.flatMap g).filter q = (l.filter p).flatMap g := by
  intro l
  induction l with
  | nil => intro _; simp
  | cons a l ih =>
    intro h
    rw [List.flatMap_cons, List.filter_append,
      ih (fun a' ha' b hb => h a' (List.mem_cons_of_mem a ha') b hb)]
    by_cases hpa : p a = true
    · have hga : (g a).filter q = g a := by
        apply List.filter_eq_self.mpr
        intro b hb
        rw [h a (List.mem_cons_self a l) b hb, hpa]
      rw [hga, List.filter_cons, if_pos hpa, List.flatMap_cons]
    · have hga : (g a).filter q = [] := by
        rw [List.filter_eq_nil]
        intro b hb
        rw [h a (List.mem_cons_self a l) b hb]
        simpa using hpa
      rw [hga, List.filter_cons, if_neg hpa, List.nil_append]

theorem filter_flatMap_single {α β : Type} (key : α → String) (q : β → String)
    (g : α → List β) :
    ∀ l : List α, (∀ a ∈ l, ∀ b ∈ g a, q b = key a) → (l.map key).Nodup →
      ∀ a0 ∈ l, (l.flatMap g).filter (fun b => q b == key a0) = g a0 := by
  intro l
  induction l with
  | nil =>
    intro _ _ a0 ha0
    simp at ha0
  | cons a l ih =>
    intro h hnd a0 ha0
    rw [List.flatMap_cons, List.filter_append]
    rw [List.map_cons, List.nodup_cons] at hnd
    rcases List.mem_cons.mp ha0 with rfl | ha0'
    · have h1 : (g a0).filter (fun b => q b == key a0) = g a0 := by
        apply List.filter_eq_self.mpr
        intro b hb
        simp [h a0 (List.mem_cons_self _ _) b hb]
      have h2 : (l.flatMap g).filter (fun b => q b == key a0) = [] := by
        rw [List.filter_eq_nil]
        intro b hb
        obtain ⟨a', ha', hb'⟩ := List.mem_flatMap.mp hb
        rw [h a' (List.mem_cons_of_mem _ ha') b hb']
        simp only [beq_iff_eq]
        intro hkey
        exact hnd.1 (hkey ▸ List.mem_map_of_mem key ha')
      rw [h1, h2, List.append_nil]
    · have h1 : (g a).filter (fun b => q b == key a0) = [] := by
        rw [List.filter_eq_nil]
        intro b hb
        rw [h a (List.mem_cons_self _ _) b hb]
        simp only [beq_iff_eq]
        intro hkey
        exact hnd.1 (hkey.symm ▸ List.mem_map_of_mem key ha0')
      rw [h1, List.nil_append]
      exact ih (fun a' ha' b hb => h a' (List.mem_cons_of_mem _ ha') b hb) hnd.2 a0 ha0'

theorem analyze_false_eq_filter (sql fp : String) :
    (analyze_sql sql fp false).findings =
      (analyze_sql sql fp true).findings.filter
        (fun f => !(strStartsWith f.rule_id "MS1")) := by
  show ((activeRules false).flatMap fun ru => ruleFindings ru sql.data) =
    ((activeRules true).flatMap fun ru => ruleFindings ru sql.data).filter _
  rw [activeRules_true,
    filter_flatMap_eq (fun r => !(strStartsWith r.id "MS1"))
      (fun f => !(strStartsWith f.rule_id "MS1"))
      (fun ru => ruleFindings ru sql.data) RULES
      (fun a _ b hb => by simp only [ruleFindings_rule_id hb])]
  have hact : activeRules false =
      RULES.filter (fun r => !(strStartsWith r.id "MS1")) := by
    unfold activeRules
    simp
  rw [hact]

/-- C4: with framework rules disabled no finding carries the MS1xx tag, and the
findings of every non-framework rule are identical whether the flag is on or
off; on `RunPython(populate_data)` the flag removes the MS101 finding entirely
while with the flag on the MS101 finding is present. -/
theorem framework_flag_excludes_ms1xx :
    (∀ sql fp : String,
        (analyze_sql sql fp false).findings =
          (analyze_sql sql fp true).findings.filter
            (fun f => !(strStartsWith f.rule_id "MS1")))
    ∧ (∀ (sql fp : String) (f : Finding),
        f ∈ (analyze_sql sql fp false).findings →
        ¬ strStartsWith f.rule_id "MS1" = true)
    ∧ (∀ (sql fp rid : String), ¬ strStartsWith rid "MS1" = true →
        (analyze_sql sql fp false).findings.filter (fun f => f.rule_id == rid) =
          (analyze_sql sql fp true).findings.filter (fun f => f.rule_id == rid))
    ∧ ((analyze_sql "RunPython(populate_data)" "<stdin>" false).findings = [])
    ∧ (∃ f ∈ (analyze_sql "RunPython(populate_data)" "<stdin>" true).findings,
        f.rule_id = "MS101") := by
  refine ⟨analyze_false_eq_filter, ?_, ?_, by decide, by decide⟩
  · intro sql fp f hf
    rw [analyze_false_eq_filter] at hf
    have := (List.mem_filter.mp hf).2
    simpa using this
  · intro sql fp rid hrid
    rw [analyze_false_eq_filter, List.filter_filter]
    apply List.filter_congr
    intro f _
    by_cases hf : f.rule_id = rid
    · subst hf
      simp only [beq_self_eq_true, Bool.and_true]
      simpa using hrid
    · simp [hf]

/-- Witness for C4: for the non-framework rule id MS002 the findings on a
concrete script agree between both flag settings. -/
theorem framework_flag_excludes_ms1xx_witness :
    (analyze_sql "DROP TABLE t;" "<stdin>" false).findings.filter
        (fun f => f.rule_id == "MS002") =
      (analyze_sql "DROP TABLE t;" "<stdin>" true).findings.filter
        (fun f => f.rule_id == "MS002") :=
  framework_flag_excludes_ms1xx.2.2.1 "DROP TABLE t;" "<stdin>" "MS002" (by decide)

/-- C8: distinct rules never suppress one another — for every active rule, the
findings of the whole analysis carrying that rule's id are exactly the findings
that rule produces on its own; the three-statement example accumulates at least
3 findings with total score at least 105. -/
theorem rules_accumulate_independently :
    (∀ (sql fp : String) (b : Bool), ∀ ru ∈ activeRules b,
        (analyze_sql sql fp b).findings.filter (fun f => f.rule_id == ru.id) =
          ruleFindings ru sql.data)
    ∧ ((analyze_sql "ALTER TABLE t DROP COLUMN a;\nDROP TABLE t;\nCREATE INDEX i ON t(c);").findings.length ≥ 3)
    ∧ ((analyze_sql "ALTER TABLE t DROP COLUMN a;\nDROP TABLE t;\nCREATE INDEX i ON t(c);").total_score ≥ 105) := by
  refine ⟨?_, by decide, by decide⟩
  intro sql fp b ru hru
  exact filter_flatMap_single Rule.id Finding.rule_id
    (fun r => ruleFindings r sql.data) (activeRules b)
    (fun a _ bb hb => ruleFindings_rule_id hb)
    (rules_id_nodup.sublist ((activeRules_sublist b).map Rule.id))
    ru hru

/-- Witness for C8: the MS005 projection of the analysis of a concrete script
equals the standalone MS005 findings. -/
theorem rules_accumulate_independently_witness :
    (analyze_sql "DROP TABLE t;" "<stdin>" true).findings.filter
        (fun f => f.rule_id == ms005Rule.id) =
      ruleFindings ms005Rule ("DROP TABLE t;".data) :=
  rules_accumulate_independently.1 "DROP TABLE t;" "<stdin>" true ms005Rule
    (by rw [activeRules_true]; simp [RULES])

/-- C9: every finding's `line` field equals 1 plus the number of newline
characters strictly before the match's start offset, and the finding on the
second line of `"SELECT 1;\nDROP TABLE users;"` reports line 2. -/
theorem line_is_newline_count :
    (∀ (sql fp : String) (b : Bool), ∀ f ∈ (analyze_sql sql fp b).findings,
        ∃ ru ∈ activeRules b, ∃ q ∈ scan ru.pattern sql.data,
          f = mkFinding ru sql.data q ∧
          f.line = (sql.data.take q.1).count '\n' + 1)
    ∧ ((analyze_sql "SELECT 1;\nDROP TABLE users;").findings.map
        (fun f => (f.rule_id, f.line)) = [("MS005", 2)]) := by
  refine ⟨?_, by decide⟩
  intro sql fp b f hf
  obtain ⟨ru, hru, hf'⟩ := mem_analyze_findings.mp hf
  obtain ⟨q, hq, rfl⟩ := List.mem_map.mp hf'
  exact ⟨ru, hru, q, hq, rfl, rfl⟩

/-- Witness for C9: the concrete MS005 finding on the two-line script is the
image of a concrete match of the MS005 pattern and its line field counts the
single newline before offset 10. -/
theorem line_is_newline_count_witness :
    ∃ ru ∈ activeRules true,
      ∃ q ∈ scan ru.pattern ("SELECT 1;\nDROP TABLE users;".data),
        (⟨"MS005", Severity.CRITICAL, 50, 2,
          "DROP TABLE causes irreversible data loss", "DROP TABLE users",
          "Ensure all services stopped using table; consider renaming first"⟩ : Finding) =
          mkFinding ru ("SELECT 1;\nDROP TABLE users;".data) q ∧
        (⟨"MS005", Severity.CRITICAL, 50, 2,
          "DROP TABLE causes irreversible data loss", "DROP TABLE users",
          "Ensure all services stopped using table; consider renaming first"⟩ : Finding).line =
          (("SELECT 1;\nDROP TABLE users;".data).take q.1).count '\n' + 1 :=
  line_is_newline_count.1 "SELECT 1;\nDROP TABLE users;" "<stdin>" true _ (by decide)

/-! ## Scoring and classification -/

theorem analyze_total_nonneg (sql fp : String) (b : Bool) :
    0 ≤ (analyze_sql sql fp b).total_score := by
  unfold AnalysisResult.total_score
  apply List.sum_nonneg
  intro x hx
  obtain ⟨f, hf, rfl⟩ := List.mem_map.mp hx
  exact le_of_lt (analyze_score_pos hf)

/-- C2: `analyze_sql` is a total function — for every input text (including the
empty string and arbitrary non-SQL garbage) it returns an `AnalysisResult` with
non-negative total score, and malformed input simply yields zero findings. -/
theorem analyze_never_fails :
    (∀ (sql fp : String) (b : Bool), 0 ≤ (analyze_sql sql fp b).total_score)
    ∧ ((analyze_sql "").findings = [] ∧ (analyze_sql "").total_score = 0)
    ∧ ((analyze_sql "@#$%^&* no sql here (12345) \t\n !!").findings = []
        ∧ (analyze_sql "@#$%^&* no sql here (12345) \t\n !!").total_score = 0) :=
  ⟨analyze_total_nonneg, by decide, by decide⟩

/-- C7: the total score is the sum of the finding scores, is always
non-negative, is zero exactly when there are no findings, and every individual
finding has positive score. -/
theorem total_score_invariants :
    ∀ (sql fp : String) (b : Bool),
      (analyze_sql sql fp b).total_score =
        ((analyze_sql sql fp b).findings.map Finding.score).sum
      ∧ 0 ≤ (analyze_sql sql fp b).total_score
      ∧ ((analyze_sql sql fp b).total_score = 0 ↔
          (analyze_sql sql fp b).findings = [])
      ∧ (∀ f ∈ (analyze_sql sql fp b).findings, 0 < f.score) := by
  intro sql fp b
  refine ⟨rfl, analyze_total_nonneg sql fp b, ?_, fun f hf => analyze_score_pos hf⟩
  constructor
  · intro h0
    rcases hfs : (analyze_sql sql fp b).findings with _ | ⟨f0, fs⟩
    · rfl
    · exfalso
      have hp0 : 0 < f0.score :=
        analyze_score_pos (by rw [hfs]; exact List.mem_cons_self _ _)
      have hsum : 0 ≤ (fs.map Finding.score).sum := by
        apply List.sum_nonneg
        intro x hx
        obtain ⟨f, hf, rfl⟩ := List.mem_map.mp hx
        exact le_of_lt (analyze_score_pos (by rw [hfs]; exact List.mem_cons_of_mem _ hf))
      have htot : (analyze_sql sql fp b).total_score =
          f0.score + (fs.map Finding.score).sum := by
        unfold AnalysisResult.total_score
        rw [hfs, List.map_cons, List.sum_cons]
      omega
  · intro h
    unfold AnalysisResult.total_score
    rw [h]
    rfl

/-- Witness for C7: the concrete MS005 finding on `DROP TABLE t;` has positive
score. -/
theorem total_score_invariants_witness :
    (0 : Int) < (⟨"MS005", Severity.CRITICAL, 50, 1,
      "DROP TABLE causes irreversible data loss", "DROP TABLE t",
      "Ensure all services stopped using table; consider renaming first"⟩ : Finding).score :=
  (total_score_invariants "DROP TABLE t;" "<stdin>" true).2.2.2 _ (by decide)

/-- C3: `risk_label` is total, returns exactly one of the four labels, obeys the
inclusive lower bounds evaluated highest first, and takes the stated values at
the boundary scores. -/
theorem risk_label_thresholds :
    (∀ sc : Int, risk_label sc = "LOW" ∨ risk_label sc = "MEDIUM" ∨
      risk_label sc = "HIGH" ∨ risk_label sc = "CRITICAL")
    ∧ (∀ sc : Int, 50 ≤ sc → risk_label sc = "CRITICAL")
    ∧ (∀ sc : Int, 30 ≤ sc → sc < 50 → risk_label sc = "HIGH")
    ∧ (∀ sc : Int, 15 ≤ sc → sc < 30 → risk_label sc = "MEDIUM")
    ∧ (∀ sc : Int, 0 ≤ sc → sc < 15 → risk_label sc = "LOW")
    ∧ risk_label 14 = "LOW" ∧ risk_label 15 = "MEDIUM" ∧ risk_label 29 = "MEDIUM"
    ∧ risk_label 30 = "HIGH" ∧ risk_label 49 = "HIGH"
    ∧ risk_label 50 = "CRITICAL" := by
  refine ⟨?_, ?_, ?_, ?_, ?_, by decide, by decide, by decide, by decide,
    by decide, by decide⟩
  · intro sc
    unfold risk_label
    split_ifs <;> tauto
  · intro sc h
    unfold risk_label
    split_ifs <;> first | rfl | omega
  · intro sc h1 h2
    unfold risk_label
    split_ifs <;> first | rfl | omega
  · intro sc h1 h2
    unfold risk_label
    split_ifs <;> first | rfl | omega
  · intro sc h1 h2
    unfold risk_label
    split_ifs <;> first | rfl | omega

/-- Witness for C3: the threshold implications at concrete scores. -/
theorem risk_label_thresholds_witness :
    risk_label 99 = "CRITICAL" ∧ risk_label 31 = "HIGH" :=
  ⟨risk_label_thresholds.2.1 99 (by decide),
   risk_label_thresholds.2.2.1 31 (by decide) (by decide)⟩

theorem labelRank_riskLabel (sc : Int) :
    labelRank (risk_label sc) =
      if 50 ≤ sc then 4 else if 30 ≤ sc then 3 else if 15 ≤ sc then 2 else 1 := by
  unfold risk_label labelRank
  split_ifs <;> first | rfl | (exfalso; simp_all) | omega

/-- C10: `risk_label` is monotone non-decreasing on non-negative scores with
respect to the severity order LOW < MEDIUM < HIGH < CRITICAL. -/
theorem risk_label_monotone :
    ∀ s1 s2 : Int, 0 ≤ s1 → s1 ≤ s2 →
      labelRank (risk_label s1) ≤ labelRank (risk_label s2) := by
  intro s1 s2 h0 h12
  rw [labelRank_riskLabel, labelRank_riskLabel]
  split_ifs <;> omega

/-- Witness for C10: monotonicity at the concrete pair (14, 50). -/
theorem risk_label_monotone_witness :
    labelRank (risk_label 14) ≤ labelRank (risk_label 50) :=
  risk_label_monotone 14 50 (by decide) (by decide)

end MigraSafe
